import Mathlib

/-!
Shallow embedding of the quiz session state machine of the EduQuiz AI
front-end (src/src/App.tsx and the `types` module).  The data model is
translated from the TypeScript interfaces; each operation is translated
from the corresponding handler function in `App.tsx`.  The asynchronous
`generateMCQs` is split into its synchronous prefix (the part that runs
before the request is awaited), its success continuation, and its catch
handler.  Timestamps (`new Date().toLocaleString()`) and the random seed
are nondeterministic inputs and appear as explicit parameters.
-/

namespace EduQuiz

/-- Grade level, the TypeScript string union `'11' | '12'` from the
`types` module. -/
inductive Grade where
  | g11
  | g12
deriving DecidableEq, Repr

/-- Interface `MCQ` from the `types` module: one generated
multiple-choice item.  `correctAnswer` is an index into `options`. -/
structure MCQ where
  question : String
  options : List String
  correctAnswer : Nat
  explanation : String
deriving DecidableEq, Repr

/-- Interface `QuizResult` from the `types` module: a completed attempt
kept in the history ledger.  In the source, `nextQuestion` copies
`state.grade` into the result through a TypeScript `as '11' | '12'`
cast; the cast performs no runtime conversion, so the field is embedded
as `Option Grade` to stay faithful to the value actually stored. -/
structure QuizResult where
  topic : String
  grade : Option Grade
  score : Nat
  totalQuestions : Nat
  date : String
deriving DecidableEq, Repr

/-- Interface `QuizState` from the `types` module: the whole session
state held in the single React `useState` of `App`.  `selectedAnswer`
is `number | null` in the source, embedded as `Option Nat`; `grade` is
`'11' | '12' | null`, embedded as `Option Grade`. -/
structure QuizState where
  topic : String
  grade : Option Grade
  questions : List MCQ
  currentQuestionIndex : Nat
  score : Nat
  isFinished : Bool
  isLoading : Bool
  selectedAnswer : Option Nat
  isAuthenticated : Bool
  history : List QuizResult
deriving DecidableEq, Repr

/-- Constant `INITIAL_STATE` of App.tsx (lines 18-29). -/
def INITIAL_STATE : QuizState :=
  { topic := ""
    grade := none
    questions := []
    currentQuestionIndex := 0
    score := 0
    isFinished := false
    isLoading := false
    selectedAnswer := none
    isAuthenticated := false
    history := [] }

/-- Grade resolution inside `generateMCQs` (App.tsx line 41):
`const grade = selectedGrade || state.grade || '11';`.  The strings
`'11'` and `'12'` are truthy, `undefined`/`null` falsy, so the first
present value wins and `'11'` is the default. -/
def resolveGrade (selectedGrade : Option Grade) (stateGrade : Option Grade) : Grade :=
  match selectedGrade with
  | some g => g
  | none =>
    match stateGrade with
    | some g => g
    | none => Grade.g11

/-- Model of JavaScript `String.prototype.trim()`: drop whitespace
from both ends.  Lean's own `String.trim` has the same meaning but is
defined by well-founded recursion over byte positions and so does not
evaluate inside proofs; this structurally recursive version does. -/
def jsTrim (s : String) : String :=
  String.mk (((s.data.dropWhile Char.isWhitespace).reverse.dropWhile
    Char.isWhitespace).reverse)

/-- Result of the synchronous prefix of `generateMCQs`: the state after
the first `setState`, whether a generation request was actually sent to
the collaborator, and any alert raised on this path (the source raises
none here; `alert` occurs only in the catch handler). -/
structure GenStart where
  state : QuizState
  requestIssued : Bool
  alertMessage : Option String
deriving DecidableEq, Repr

/-- Synchronous prefix of `generateMCQs` (App.tsx lines 38-42).  The
source is
`if (!searchQuery.trim()) return;` followed by
`setState(prev => ({ ...prev, isLoading: true, topic: searchQuery, grade }))`
and then the awaited collaborator call.  A blank (whitespace-only)
query returns before any state update and no request is issued;
otherwise the state is updated and the request goes out.  Note that the
source performs no `isLoading` re-entrancy check. -/
def generateMCQsStart (s : QuizState) (searchQuery : String)
    (selectedGrade : Option Grade) : GenStart :=
  if jsTrim searchQuery = "" then
    { state := s, requestIssued := false, alertMessage := none }
  else
    { state := { s with
        isLoading := true
        topic := searchQuery
        grade := some (resolveGrade selectedGrade s.grade) }
      requestIssued := true
      alertMessage := none }

/-- Success continuation of `generateMCQs` (App.tsx lines 96-104): the
`setState` that installs the parsed question list. -/
def generateMCQsOnSuccess (s : QuizState) (questions : List MCQ) : QuizState :=
  { s with
    questions := questions
    isLoading := false
    currentQuestionIndex := 0
    score := 0
    isFinished := false
    selectedAnswer := none }

/-- Result of the catch handler: the state after its `setState`, plus
the blocking alert it raises. -/
structure GenFailure where
  state : QuizState
  alertMessage : Option String
deriving DecidableEq, Repr

/-- Catch handler of `generateMCQs` (App.tsx lines 105-109): on any
thrown error (transport failure or `JSON.parse` failure) it runs
`setState(prev => ({ ...prev, isLoading: false }))` and
`alert("Failed to generate questions. Please try again.")`. -/
def generateMCQsOnFailure (s : QuizState) : GenFailure :=
  { state := { s with isLoading := false }
    alertMessage := some "Failed to generate questions. Please try again." }

/-- Handler `handleAnswerSelect` (App.tsx lines 112-115):
`if (state.selectedAnswer !== null) return;` then
`setState(prev => ({ ...prev, selectedAnswer: index }))`. -/
def handleAnswerSelect (s : QuizState) (index : Nat) : QuizState :=
  if s.selectedAnswer ≠ none then s
  else { s with selectedAnswer := some index }

/-- Handler `nextQuestion` (App.tsx lines 117-145).  The first line
reads `state.questions[state.currentQuestionIndex].correctAnswer`; if
the index is out of bounds, the JavaScript indexing yields `undefined`
and the property access throws a TypeError before either `setState`
runs, leaving the state unchanged — embedded as the `none` branch of
the lookup.  Otherwise: `isCorrect` compares `selectedAnswer` to the
current question's `correctAnswer` with `===` (`null === n` is false);
at the last index a `QuizResult` is consed onto the front of `history`
and the session finishes; otherwise the index advances.  Both branches
write the (possibly incremented) score and clear `selectedAnswer`. -/
def nextQuestion (s : QuizState) (date : String) : QuizState :=
  match s.questions[s.currentQuestionIndex]? with
  | none => s
  | some q =>
    let isCorrect := s.selectedAnswer = some q.correctAnswer
    let newScore := if isCorrect then s.score + 1 else s.score
    if s.currentQuestionIndex = s.questions.length - 1 then
      let newResult : QuizResult :=
        { topic := s.topic
          grade := s.grade
          score := newScore
          totalQuestions := s.questions.length
          date := date }
      { s with
        score := newScore
        isFinished := true
        selectedAnswer := none
        history := newResult :: s.history }
    else
      { s with
        score := newScore
        currentQuestionIndex := s.currentQuestionIndex + 1
        selectedAnswer := none }

/-- Handler `resetQuiz` (App.tsx lines 152-155):
`setState(prev => ({ ...INITIAL_STATE, history: prev.history, isAuthenticated: prev.isAuthenticated }))`.
(The accompanying `setSearchQuery('')` touches only the separate search
box state, not the session.) -/
def resetQuiz (s : QuizState) : QuizState :=
  { INITIAL_STATE with
    history := s.history
    isAuthenticated := s.isAuthenticated }

/-- Render guard of the active-quiz block (App.tsx line 326):
`state.questions.length > 0 && !state.isFinished`.  The answer buttons
and the Next/Finish button exist only inside this block. -/
def quizBlockShown (s : QuizState) : Bool :=
  decide (s.questions.length > 0) && !s.isFinished

/-- Render guard of the Next/Finish button (App.tsx lines 396 and 411):
inside the active-quiz block, the button is rendered only when
`state.selectedAnswer !== null`.  This is the only caller of
`nextQuestion`. -/
def nextButtonShown (s : QuizState) : Bool :=
  quizBlockShown s && s.selectedAnswer.isSome

/-- One user- or callback-triggered mutation of the session state, with
the conditions under which the app can actually fire it.  Guards are
the literal render conditions of App.tsx:
* `generateMCQs` is reachable from the subjects view (lines 556 and
  579), whose Start Practice buttons are rendered unconditionally, so
  it carries no state guard;
* the generation callbacks fire whenever a request was issued earlier —
  there is no cancellation, so no state guard restricts them;
* an answer button exists only inside the active-quiz block (line 326),
  one per option of the current question (line 356), and is disabled
  once an answer is selected (line 365);
* the Next/Finish button calling `nextQuestion` exists only inside the
  active-quiz block with an answer selected (lines 326, 396, 411);
* `resetQuiz` is reachable from the always-rendered header logo
  (line 166). -/
inductive Step : QuizState → QuizState → Prop where
  | startGen (s : QuizState) (searchQuery : String) (selectedGrade : Option Grade) :
      Step s (generateMCQsStart s searchQuery selectedGrade).state
  | genSuccess (s : QuizState) (questions : List MCQ) :
      Step s (generateMCQsOnSuccess s questions)
  | genFailure (s : QuizState) :
      Step s (generateMCQsOnFailure s).state
  | selectAnswer (s : QuizState) (index : Nat) (q : MCQ) :
      quizBlockShown s = true →
      s.selectedAnswer = none →
      s.questions[s.currentQuestionIndex]? = some q →
      index < q.options.length →
      Step s (handleAnswerSelect s index)
  | advance (s : QuizState) (date : String) :
      nextButtonShown s = true →
      Step s (nextQuestion s date)
  | reset (s : QuizState) :
      Step s (resetQuiz s)

/-- Session states the running app can reach from `INITIAL_STATE` by
firing the available handlers. -/
inductive Reachable : QuizState → Prop where
  | init : Reachable INITIAL_STATE
  | step {s t : QuizState} : Reachable s → Step s t → Reachable t

/-- One answered question of a traversal: the option index clicked and
the timestamp of the advance. -/
structure Answered where
  choice : Nat
  date : String
deriving DecidableEq, Repr

/-- Complete traversal of a session: for each listed question, select
an answer and advance. -/
def traverseSession (s : QuizState) (steps : List Answered) : QuizState :=
  steps.foldl (fun st p => nextQuestion (handleAnswerSelect st p.choice) p.date) s

/-- Combined machine invariant: the score never exceeds the number of
questions advanced past, and while the session is active with a
non-empty question list the current index is in bounds. -/
def Inv (s : QuizState) : Prop :=
  s.score ≤ s.currentQuestionIndex + (if s.isFinished then 1 else 0) ∧
  (s.isFinished = false → s.questions.length ≠ 0 →
    s.currentQuestionIndex < s.questions.length)

/-- Sample question used by concrete witnesses. -/
def mcqA : MCQ :=
  { question := "What is the SI unit of force?"
    options := ["Newton", "Joule", "Watt", "Pascal"]
    correctAnswer := 0
    explanation := "Force is measured in newtons." }

/-- Second sample question used by concrete witnesses. -/
def mcqB : MCQ :=
  { question := "Which gas do plants absorb?"
    options := ["Oxygen", "Carbon dioxide", "Nitrogen", "Helium"]
    correctAnswer := 1
    explanation := "Photosynthesis consumes carbon dioxide." }

/-- Concrete active session with one question, reachable from the
initial state by one (unguarded) generation callback.  Used by
witnesses. -/
def sampleOneQ : QuizState :=
  generateMCQsOnSuccess INITIAL_STATE [mcqA]

/-- Concrete active session with two questions, used by witnesses. -/
def sampleTwoQ : QuizState :=
  generateMCQsOnSuccess INITIAL_STATE [mcqA, mcqB]

/-! ### Unfolding lemmas for the operations -/

/-- Selecting with no answer recorded stores the clicked index. -/
theorem handleAnswerSelect_of_none (s : QuizState) (i : Nat)
    (h : s.selectedAnswer = none) :
    handleAnswerSelect s i = { s with selectedAnswer := some i } := by
  simp [handleAnswerSelect, h]

/-- Selecting with an answer already recorded is a no-op. -/
theorem handleAnswerSelect_of_some (s : QuizState) (i : Nat)
    (h : s.selectedAnswer ≠ none) :
    handleAnswerSelect s i = s := by
  simp [handleAnswerSelect, h]

/-- Any run of selections after the first recorded answer is a no-op. -/
theorem foldl_handleAnswerSelect_of_some (l : List Nat) (t : QuizState)
    (h : t.selectedAnswer ≠ none) :
    l.foldl handleAnswerSelect t = t := by
  induction l with
  | nil => rfl
  | cons x xs ih => rw [List.foldl_cons, handleAnswerSelect_of_some t x h]; exact ih

/-- With the current index out of bounds, the property access on the
first line of `nextQuestion` throws and the state is unchanged. -/
theorem nextQuestion_oob (s : QuizState) (d : String)
    (h : s.questions.length ≤ s.currentQuestionIndex) :
    nextQuestion s d = s := by
  unfold nextQuestion
  rw [List.getElem?_eq_none h]

/-- Advancing anywhere but the last index bumps the index, clears the
selection, and settles the score. -/
theorem nextQuestion_nonfinal (s : QuizState) (d : String) (q : MCQ)
    (hq : s.questions[s.currentQuestionIndex]? = some q)
    (hne : s.currentQuestionIndex ≠ s.questions.length - 1) :
    nextQuestion s d =
      { s with
        score := if s.selectedAnswer = some q.correctAnswer then s.score + 1 else s.score
        currentQuestionIndex := s.currentQuestionIndex + 1
        selectedAnswer := none } := by
  unfold nextQuestion
  rw [hq]
  simp [hne]

/-- Advancing at the last index settles the score, finishes the
session, clears the selection, and prepends the result record. -/
theorem nextQuestion_final (s : QuizState) (d : String) (q : MCQ)
    (hq : s.questions[s.currentQuestionIndex]? = some q)
    (hfin : s.currentQuestionIndex = s.questions.length - 1) :
    nextQuestion s d =
      { s with
        score := if s.selectedAnswer = some q.correctAnswer then s.score + 1 else s.score
        isFinished := true
        selectedAnswer := none
        history :=
          { topic := s.topic
            grade := s.grade
            score := if s.selectedAnswer = some q.correctAnswer then s.score + 1 else s.score
            totalQuestions := s.questions.length
            date := d } :: s.history } := by
  unfold nextQuestion
  rw [hq]
  simp [hfin]

/-- With no answer selected, advancing never changes the score. -/
theorem nextQuestion_score_of_none (s : QuizState) (d : String)
    (h : s.selectedAnswer = none) :
    (nextQuestion s d).score = s.score := by
  unfold nextQuestion
  cases hq : s.questions[s.currentQuestionIndex]? with
  | none => rfl
  | some q => simp [h]; split <;> simp

/-! ### The machine invariant -/

/-- The machine invariant holds in the initial state. -/
theorem inv_initial : Inv INITIAL_STATE := by
  constructor
  · simp [INITIAL_STATE]
  · intro _ h
    simp [INITIAL_STATE] at h

/-- The machine invariant is preserved by every step the app can
fire. -/
theorem inv_step {s t : QuizState} (hs : Inv s) (hst : Step s t) : Inv t := by
  obtain ⟨h1, h2⟩ := hs
  unfold Inv
  cases hst with
  | startGen q g =>
    unfold generateMCQsStart
    split <;> exact ⟨h1, h2⟩
  | genSuccess qs =>
    constructor
    · simp [generateMCQsOnSuccess]
    · intro _ hlen
      simp only [generateMCQsOnSuccess] at hlen ⊢
      omega
  | genFailure =>
    exact ⟨h1, h2⟩
  | selectAnswer i q hblock hsel hq hopt =>
    rw [handleAnswerSelect_of_none s i hsel]
    exact ⟨h1, h2⟩
  | advance d hbtn =>
    simp only [nextButtonShown, quizBlockShown, Bool.and_eq_true, Bool.not_eq_true',
      decide_eq_true_eq, Option.isSome_iff_exists] at hbtn
    obtain ⟨⟨hlen, hfin⟩, a, hsel⟩ := hbtn
    have hidx : s.currentQuestionIndex < s.questions.length := h2 hfin (by omega)
    have hq := List.getElem?_eq_getElem hidx
    rw [hfin] at h1
    simp only [if_neg Bool.false_ne_true] at h1
    by_cases hfin2 : s.currentQuestionIndex = s.questions.length - 1
    · rw [nextQuestion_final s d _ hq hfin2]
      refine ⟨?_, ?_⟩
      · show (if s.selectedAnswer = some (s.questions[s.currentQuestionIndex]).correctAnswer
            then s.score + 1 else s.score) ≤ s.currentQuestionIndex + 1
        split <;> omega
      · intro hf _
        simp at hf
    · rw [nextQuestion_nonfinal s d _ hq hfin2]
      refine ⟨?_, ?_⟩
      · show (if s.selectedAnswer = some (s.questions[s.currentQuestionIndex]).correctAnswer
            then s.score + 1 else s.score) ≤
            s.currentQuestionIndex + 1 + (if s.isFinished = true then 1 else 0)
        rw [hfin]
        simp only [if_neg Bool.false_ne_true]
        split <;> omega
      · intro _ _
        show s.currentQuestionIndex + 1 < s.questions.length
        omega
  | reset =>
    constructor
    · simp [resetQuiz, INITIAL_STATE]
    · intro _ hlen
      simp [resetQuiz, INITIAL_STATE] at hlen

/-- The machine invariant holds in every reachable state. -/
theorem inv_reachable {s : QuizState} (h : Reachable s) : Inv s := by
  induction h with
  | init => exact inv_initial
  | step _ hst ih => exact inv_step ih hst

/-! ### Traversal lemma -/

/-- Answering and advancing through all remaining questions appends
exactly one ledger entry. -/
theorem traverse_appends_one :
    ∀ (steps : List Answered) (s : QuizState),
      s.selectedAnswer = none →
      s.currentQuestionIndex + steps.length = s.questions.length →
      steps ≠ [] →
      (traverseSession s steps).history.length = s.history.length + 1 := by
  intro steps
  induction steps with
  | nil => intro s _ _ hne; exact absurd rfl hne
  | cons p rest ih =>
    intro s hsel hlen _
    rw [List.length_cons] at hlen
    have hidx : s.currentQuestionIndex < s.questions.length := by omega
    have hq := List.getElem?_eq_getElem hidx
    simp only [traverseSession, List.foldl_cons]
    rw [handleAnswerSelect_of_none s p.choice hsel]
    have hq1 : ({s with selectedAnswer := some p.choice} :
        QuizState).questions[({s with selectedAnswer := some p.choice} :
        QuizState).currentQuestionIndex]? =
        some (s.questions[s.currentQuestionIndex]) := hq
    by_cases hrest : rest = []
    · subst hrest
      simp only [List.length_nil] at hlen
      have hfin : ({s with selectedAnswer := some p.choice} :
          QuizState).currentQuestionIndex =
          ({s with selectedAnswer := some p.choice} :
          QuizState).questions.length - 1 := by
        show s.currentQuestionIndex = s.questions.length - 1
        omega
      rw [List.foldl_nil, nextQuestion_final _ p.date _ hq1 hfin]
      simp
    · have hne1 : ({s with selectedAnswer := some p.choice} :
          QuizState).currentQuestionIndex ≠
          ({s with selectedAnswer := some p.choice} :
          QuizState).questions.length - 1 := by
        show s.currentQuestionIndex ≠ s.questions.length - 1
        have hpos : 0 < rest.length := List.length_pos.2 hrest
        omega
      rw [nextQuestion_nonfinal _ p.date _ hq1 hne1]
      exact ih _ rfl (by show s.currentQuestionIndex + 1 + rest.length = s.questions.length; omega) hrest

/-! ### Claims -/

/-- Claim C1: in a session state with a selected option and the current
question in bounds, one `Advance()` (`nextQuestion`) increments the
score by exactly 1 iff the selected option equals the current
question's `correctAnswer`; at the last index it prepends exactly one
result carrying the topic, the grade, the post-increment score and the
question count to the history ledger, finishes the session, and clears
the selection; otherwise it increments the index, clears the
selection, and leaves the ledger unchanged. -/
theorem claim1_advance_effect (s : QuizState) (a : Nat) (q : MCQ) (d : String)
    (hsel : s.selectedAnswer = some a)
    (hq : s.questions[s.currentQuestionIndex]? = some q) :
    ((nextQuestion s d).score = s.score + 1 ↔ a = q.correctAnswer) ∧
    (nextQuestion s d).score =
      (if a = q.correctAnswer then s.score + 1 else s.score) ∧
    (s.currentQuestionIndex = s.questions.length - 1 →
      (nextQuestion s d).history =
        { topic := s.topic
          grade := s.grade
          score := (nextQuestion s d).score
          totalQuestions := s.questions.length
          date := d } :: s.history ∧
      (nextQuestion s d).isFinished = true ∧
      (nextQuestion s d).selectedAnswer = none) ∧
    (s.currentQuestionIndex ≠ s.questions.length - 1 →
      (nextQuestion s d).currentQuestionIndex = s.currentQuestionIndex + 1 ∧
      (nextQuestion s d).selectedAnswer = none ∧
      (nextQuestion s d).history = s.history ∧
      (nextQuestion s d).isFinished = s.isFinished) := by
  by_cases hfin : s.currentQuestionIndex = s.questions.length - 1
  · rw [nextQuestion_final s d q hq hfin]
    by_cases hc : a = q.correctAnswer <;> simp [hsel, hc, hfin]
  · rw [nextQuestion_nonfinal s d q hq hfin]
    by_cases hc : a = q.correctAnswer <;> simp [hsel, hc, hfin]

/-- Witness for C1 at a concrete two-question session with the first
option of the first question selected. -/
theorem claim1_advance_effect_witness :
    ((nextQuestion (handleAnswerSelect sampleTwoQ 0) "t1").score =
        (handleAnswerSelect sampleTwoQ 0).score + 1 ↔ 0 = mcqA.correctAnswer) ∧
    (nextQuestion (handleAnswerSelect sampleTwoQ 0) "t1").score =
      (if 0 = mcqA.correctAnswer then (handleAnswerSelect sampleTwoQ 0).score + 1
       else (handleAnswerSelect sampleTwoQ 0).score) ∧
    ((handleAnswerSelect sampleTwoQ 0).currentQuestionIndex =
        (handleAnswerSelect sampleTwoQ 0).questions.length - 1 →
      (nextQuestion (handleAnswerSelect sampleTwoQ 0) "t1").history =
        { topic := (handleAnswerSelect sampleTwoQ 0).topic
          grade := (handleAnswerSelect sampleTwoQ 0).grade
          score := (nextQuestion (handleAnswerSelect sampleTwoQ 0) "t1").score
          totalQuestions := (handleAnswerSelect sampleTwoQ 0).questions.length
          date := "t1" } :: (handleAnswerSelect sampleTwoQ 0).history ∧
      (nextQuestion (handleAnswerSelect sampleTwoQ 0) "t1").isFinished = true ∧
      (nextQuestion (handleAnswerSelect sampleTwoQ 0) "t1").selectedAnswer = none) ∧
    ((handleAnswerSelect sampleTwoQ 0).currentQuestionIndex ≠
        (handleAnswerSelect sampleTwoQ 0).questions.length - 1 →
      (nextQuestion (handleAnswerSelect sampleTwoQ 0) "t1").currentQuestionIndex =
        (handleAnswerSelect sampleTwoQ 0).currentQuestionIndex + 1 ∧
      (nextQuestion (handleAnswerSelect sampleTwoQ 0) "t1").selectedAnswer = none ∧
      (nextQuestion (handleAnswerSelect sampleTwoQ 0) "t1").history =
        (handleAnswerSelect sampleTwoQ 0).history ∧
      (nextQuestion (handleAnswerSelect sampleTwoQ 0) "t1").isFinished =
        (handleAnswerSelect sampleTwoQ 0).isFinished) :=
  claim1_advance_effect (handleAnswerSelect sampleTwoQ 0) 0 mcqA "t1"
    (by decide) (by decide)

/-- Claim C2: a complete traversal of an N-question session (N at
least 1; each question answered then advanced) grows the history
ledger by exactly one entry, and `Advance()` at the final index is the
only one of the five operations that ever prepends to the ledger:
every other operation, and every non-final advance, leaves the ledger
exactly as it was. -/
theorem claim2_ledger_growth :
    (∀ (s : QuizState) (steps : List Answered),
        s.selectedAnswer = none →
        s.currentQuestionIndex = 0 →
        steps.length = s.questions.length →
        s.questions.length ≠ 0 →
        (traverseSession s steps).history.length = s.history.length + 1) ∧
    (∀ (s : QuizState) (q : String) (g : Option Grade),
        (generateMCQsStart s q g).state.history = s.history) ∧
    (∀ (s : QuizState) (qs : List MCQ),
        (generateMCQsOnSuccess s qs).history = s.history) ∧
    (∀ s : QuizState, (generateMCQsOnFailure s).state.history = s.history) ∧
    (∀ (s : QuizState) (i : Nat), (handleAnswerSelect s i).history = s.history) ∧
    (∀ s : QuizState, (resetQuiz s).history = s.history) ∧
    (∀ (s : QuizState) (d : String),
        (nextQuestion s d).history = s.history ∨
        (s.currentQuestionIndex + 1 = s.questions.length ∧
         ∃ r, (nextQuestion s d).history = r :: s.history)) := by
  refine ⟨?_, ?_, ?_, ?_, ?_, ?_, ?_⟩
  · intro s steps hsel hidx0 hlen hne
    have hnil : steps ≠ [] := by
      intro h
      rw [h] at hlen
      simp at hlen
      exact hne hlen.symm
    exact traverse_appends_one steps s hsel (by omega) hnil
  · intro s q g
    unfold generateMCQsStart
    split <;> rfl
  · intro s qs
    rfl
  · intro s
    rfl
  · intro s i
    unfold handleAnswerSelect
    split <;> rfl
  · intro s
    rfl
  · intro s d
    rcases hq : s.questions[s.currentQuestionIndex]? with _ | q
    · left
      rw [nextQuestion_oob s d (by simpa using List.getElem?_eq_none_iff.1 hq)]
    · have hidx : s.currentQuestionIndex < s.questions.length := by
        rcases List.getElem?_eq_some.1 hq with ⟨h, _⟩
        exact h
      by_cases hfin : s.currentQuestionIndex = s.questions.length - 1
      · right
        refine ⟨by omega, ?_⟩
        rw [nextQuestion_final s d q hq hfin]
        exact ⟨_, rfl⟩
      · left
        rw [nextQuestion_nonfinal s d q hq hfin]

/-- Witness for C2 at a concrete one-question session. -/
theorem claim2_ledger_growth_witness :
    (traverseSession sampleOneQ [{ choice := 0, date := "t1" }]).history.length =
      sampleOneQ.history.length + 1 :=
  claim2_ledger_growth.1 sampleOneQ [{ choice := 0, date := "t1" }]
    rfl rfl (by decide) (by decide)

/-- Claim C3 counterexample: `nextQuestion` performs no precondition
check on `selectedAnswer`.  From a one-question session with the
correct option selected, the first call finishes the session and
clears the selection; a second call, with `selectedAnswer` now `none`,
is not a no-op: it prepends a second (duplicate) result to the history
ledger, so the claimed absence of a double history append fails. -/
theorem claim3_counterexample :
    (nextQuestion (handleAnswerSelect sampleOneQ 0) "t1").selectedAnswer = none ∧
    (nextQuestion (handleAnswerSelect sampleOneQ 0) "t1").history.length = 1 ∧
    (nextQuestion (nextQuestion (handleAnswerSelect sampleOneQ 0) "t1") "t2").history.length = 2 := by
  decide

/-- Claim C3 as amended: after an `Advance()` from a state with an
answer selected and the index in bounds, the selection is cleared and
the Next/Finish button — the sole caller of `nextQuestion` — is no
longer rendered, so a second `Advance()` cannot be triggered through
the UI; and a raw second call of `nextQuestion` never changes the
score (no double-scoring), although it is not a no-op (it advances the
index or appends a duplicate ledger entry, as the counterexample
shows). -/
theorem claim3_no_double_advance (s : QuizState) (a : Nat) (d1 d2 : String)
    (_hsel : s.selectedAnswer = some a)
    (hidx : s.currentQuestionIndex < s.questions.length) :
    (nextQuestion s d1).selectedAnswer = none ∧
    nextButtonShown (nextQuestion s d1) = false ∧
    (nextQuestion (nextQuestion s d1) d2).score = (nextQuestion s d1).score := by
  have hq := List.getElem?_eq_getElem hidx
  have hnone : (nextQuestion s d1).selectedAnswer = none := by
    by_cases hfin : s.currentQuestionIndex = s.questions.length - 1
    · rw [nextQuestion_final s d1 _ hq hfin]
    · rw [nextQuestion_nonfinal s d1 _ hq hfin]
  refine ⟨hnone, ?_, nextQuestion_score_of_none _ d2 hnone⟩
  simp [nextButtonShown, hnone]

/-- Witness for the amended C3 at a concrete one-question session. -/
theorem claim3_no_double_advance_witness :
    (nextQuestion (handleAnswerSelect sampleOneQ 1) "t1").selectedAnswer = none ∧
    nextButtonShown (nextQuestion (handleAnswerSelect sampleOneQ 1) "t1") = false ∧
    (nextQuestion (nextQuestion (handleAnswerSelect sampleOneQ 1) "t1") "t2").score =
      (nextQuestion (handleAnswerSelect sampleOneQ 1) "t1").score :=
  claim3_no_double_advance (handleAnswerSelect sampleOneQ 1) 1 "t1" "t2"
    (by decide) (by decide)

/-- Concrete loading state: a generation request for topic Physics is
in flight.  Used by the C4 statements. -/
def sampleLoading : QuizState :=
  (generateMCQsStart INITIAL_STATE "Physics" none).state

/-- Claim C4 counterexample: `generateMCQs` performs no `isLoading`
re-entrancy check (and the Start Practice buttons of the subjects view
invoke it unconditionally), so from a state with a request already in
flight a second call with a non-blank topic issues a second request
and mutates the session (it overwrites the topic). -/
theorem claim4_counterexample :
    sampleLoading.isLoading = true ∧
    (generateMCQsStart sampleLoading "Chemistry" (some Grade.g12)).requestIssued = true ∧
    (generateMCQsStart sampleLoading "Chemistry" (some Grade.g12)).state ≠ sampleLoading := by
  decide

/-- Claim C4 as amended: a `StartGeneration` call is ignored only when
the topic is blank after trimming.  In every state with a request in
flight (`isLoading = true`) and a non-blank topic, the call proceeds:
it issues another generation request, keeps `isLoading` set, and
overwrites `topic` and `grade`, so two requests can be in flight for
the same session. -/
theorem claim4_no_reentrancy_guard (s : QuizState) (q : String)
    (g : Option Grade) (_hload : s.isLoading = true) (hq : jsTrim q ≠ "") :
    (generateMCQsStart s q g).requestIssued = true ∧
    (generateMCQsStart s q g).state.isLoading = true ∧
    (generateMCQsStart s q g).state.topic = q ∧
    (generateMCQsStart s q g).state.grade = some (resolveGrade g s.grade) := by
  simp [generateMCQsStart, hq]

/-- Witness for the amended C4 at the concrete loading state. -/
theorem claim4_no_reentrancy_guard_witness :
    (generateMCQsStart sampleLoading "Chemistry" (some Grade.g12)).requestIssued = true ∧
    (generateMCQsStart sampleLoading "Chemistry" (some Grade.g12)).state.isLoading = true ∧
    (generateMCQsStart sampleLoading "Chemistry" (some Grade.g12)).state.topic = "Chemistry" ∧
    (generateMCQsStart sampleLoading "Chemistry" (some Grade.g12)).state.grade =
      some (resolveGrade (some Grade.g12) sampleLoading.grade) :=
  claim4_no_reentrancy_guard sampleLoading "Chemistry" (some Grade.g12)
    (by decide) (by decide)

/-- Claim C5: the failure path of the generation call clears
`isLoading`, raises a user-visible alert, and leaves every other
session field — questions, index, score, finished flag, selection,
history, topic, grade — exactly as it was. -/
theorem claim5_failure_preserves_state (s : QuizState) :
    (generateMCQsOnFailure s).state.isLoading = false ∧
    (generateMCQsOnFailure s).alertMessage.isSome = true ∧
    (generateMCQsOnFailure s).state.questions = s.questions ∧
    (generateMCQsOnFailure s).state.currentQuestionIndex = s.currentQuestionIndex ∧
    (generateMCQsOnFailure s).state.score = s.score ∧
    (generateMCQsOnFailure s).state.isFinished = s.isFinished ∧
    (generateMCQsOnFailure s).state.selectedAnswer = s.selectedAnswer ∧
    (generateMCQsOnFailure s).state.history = s.history ∧
    (generateMCQsOnFailure s).state.topic = s.topic ∧
    (generateMCQsOnFailure s).state.grade = s.grade :=
  ⟨rfl, rfl, rfl, rfl, rfl, rfl, rfl, rfl, rfl, rfl⟩

/-- Concrete mid-session state: two questions generated, the first
answered correctly and advanced past.  Used by witnesses. -/
def sampleMid : QuizState :=
  nextQuestion (handleAnswerSelect sampleTwoQ 0) "t1"

/-- The one-question sample session is reachable. -/
theorem sampleOneQ_reachable : Reachable sampleOneQ :=
  Reachable.step Reachable.init (Step.genSuccess INITIAL_STATE [mcqA])

/-- The mid-session sample state is reachable. -/
theorem sampleMid_reachable : Reachable sampleMid :=
  Reachable.step
    (Reachable.step
      (Reachable.step Reachable.init (Step.genSuccess INITIAL_STATE [mcqA, mcqB]))
      (Step.selectAnswer sampleTwoQ 0 mcqA (by decide) rfl rfl (by decide)))
    (Step.advance (handleAnswerSelect sampleTwoQ 0) "t1" (by decide))

/-- Claim C6: in every session state reachable by the app's
operations, the score never exceeds the number of questions advanced
past: `score <= currentQuestionIndex + (1 if isFinished else 0)`. -/
theorem claim6_score_bound (s : QuizState) (h : Reachable s) :
    s.score ≤ s.currentQuestionIndex + (if s.isFinished then 1 else 0) :=
  (inv_reachable h).1

/-- Witness for C6 at the reachable mid-session state, where the bound
is tight: one point scored, one question advanced past. -/
theorem claim6_score_bound_witness :
    sampleMid.score ≤ sampleMid.currentQuestionIndex +
      (if sampleMid.isFinished then 1 else 0) :=
  claim6_score_bound sampleMid sampleMid_reachable

/-- Claim C7: with no answer yet selected, `SelectAnswer(idx)` stores
`idx`, and any sequence of further selections before the next advance
leaves the stored answer untouched — the first write wins. -/
theorem claim7_first_answer_wins (s : QuizState) (idx : Nat) (others : List Nat)
    (h : s.selectedAnswer = none) :
    (handleAnswerSelect s idx).selectedAnswer = some idx ∧
    others.foldl handleAnswerSelect (handleAnswerSelect s idx) =
      handleAnswerSelect s idx := by
  rw [handleAnswerSelect_of_none s idx h]
  exact ⟨rfl, foldl_handleAnswerSelect_of_some others _ (by simp)⟩

/-- Witness for C7: select option 2, then click 0, 1 and 3; the stored
answer stays 2. -/
theorem claim7_first_answer_wins_witness :
    (handleAnswerSelect sampleOneQ 2).selectedAnswer = some 2 ∧
    [0, 1, 3].foldl handleAnswerSelect (handleAnswerSelect sampleOneQ 2) =
      handleAnswerSelect sampleOneQ 2 :=
  claim7_first_answer_wins sampleOneQ 2 [0, 1, 3] rfl

/-- Claim C8: `StartGeneration` with a topic that is blank after
trimming is silently ignored — no request is issued, no alert is
raised, and the whole session state is returned unchanged. -/
theorem claim8_blank_topic_noop (s : QuizState) (q : String) (g : Option Grade)
    (h : jsTrim q = "") :
    generateMCQsStart s q g =
      { state := s, requestIssued := false, alertMessage := none } := by
  simp [generateMCQsStart, h]

/-- Witness for C8 with a whitespace-only topic. -/
theorem claim8_blank_topic_noop_witness :
    generateMCQsStart INITIAL_STATE "   " none =
      { state := INITIAL_STATE, requestIssued := false, alertMessage := none } :=
  claim8_blank_topic_noop INITIAL_STATE "   " none (by decide)

/-- Claim C9: a generation callback carrying 0 questions yields an
active, non-loading session with an empty question list (whose quiz
block — the only place the current question is read — is not
rendered), and in every reachable active session with a non-empty
question list the current index is in bounds, so the
`questions[currentQuestionIndex]` read performed by `nextQuestion`
succeeds and its out-of-bounds branch is unreachable. -/
theorem claim9_empty_generation_safe :
    (∀ s : QuizState,
        (generateMCQsOnSuccess s []).questions = [] ∧
        (generateMCQsOnSuccess s []).isFinished = false ∧
        (generateMCQsOnSuccess s []).isLoading = false ∧
        quizBlockShown (generateMCQsOnSuccess s []) = false) ∧
    (∀ s : QuizState, Reachable s → s.isFinished = false →
        s.questions.length ≠ 0 →
        ∃ q, s.questions[s.currentQuestionIndex]? = some q) := by
  constructor
  · intro s
    exact ⟨rfl, rfl, rfl, rfl⟩
  · intro s hr hfin hlen
    have hidx := (inv_reachable hr).2 hfin hlen
    exact ⟨s.questions[s.currentQuestionIndex], List.getElem?_eq_getElem hidx⟩

/-- Witness for C9 at the reachable one-question session. -/
theorem claim9_empty_generation_safe_witness :
    ∃ q, sampleOneQ.questions[sampleOneQ.currentQuestionIndex]? = some q :=
  claim9_empty_generation_safe.2 sampleOneQ sampleOneQ_reachable rfl (by decide)

/-- Claim C10: `Reset()` returns the session to idle — topic empty,
grade unset, no questions, index, score and selection cleared, not
finished, not loading — while the history ledger is passed through
untouched. -/
theorem claim10_reset_preserves_history (s : QuizState) :
    (resetQuiz s).topic = "" ∧
    (resetQuiz s).grade = none ∧
    (resetQuiz s).questions = [] ∧
    (resetQuiz s).currentQuestionIndex = 0 ∧
    (resetQuiz s).score = 0 ∧
    (resetQuiz s).selectedAnswer = none ∧
    (resetQuiz s).isFinished = false ∧
    (resetQuiz s).isLoading = false ∧
    (resetQuiz s).history = s.history :=
  ⟨rfl, rfl, rfl, rfl, rfl, rfl, rfl, rfl, rfl⟩

end EduQuiz
